import Mathlib

/-!
Verification of firebird_fdw (PostgreSQL foreign data wrapper for Firebird)
against its natural-language specification.

The definitions below are a shallow embedding of the C sources:
  * `src/connection.c`  — connection cache and remote transaction coordinator
  * `src/convert.c`     — expression classifier (`foreign_expr_walker`) and
                          remote SQL renderer (`convert*` functions)
  * `src/deparse.c`     — legacy target-list deparser (same NULL placeholder)

External libfq driver calls (FQexec, FQstatus, ...) are modelled by their
observable effect on the embedded state; remote success/failure is passed in
as an explicit boolean oracle where the code branches on it.
-/

namespace FirebirdFdw

/-! ## Connection cache data model (src/connection.c)

`FBconn` models the libfq connection handle fields the FDW reads:
the connection parameters recoverable from the handle (`FQdb_path`,
`FQuname`, `FQupass`), the status (`FQstatus` == CONNECTION_OK) and
whether a remote transaction is active (`FQisActiveTransaction`). -/

structure FBconn where
  db_path : String
  uname : String
  upass : String
  status_ok : Bool
  active_tx : Bool
deriving Repr, DecidableEq

/-- `ConnCacheEntry` from src/connection.c lines 32-39: connection handle
(NULL modelled as `none`), transaction depth and subxact error flag. -/
structure ConnCacheEntry where
  conn : Option FBconn
  xact_depth : Nat
  have_error : Bool
deriving Repr, DecidableEq

/-- `firebirdGetConnection` (src/connection.c lines 64-176): connect with the
given parameters; on failure (`FQstatus != CONNECTION_OK`) the code raises a
fatal error (ereport ERROR), modelled as `Except.error`.  Success of the
network connect is the oracle `connectOk`.  A fresh connection has no open
remote transaction. -/
def firebirdGetConnection (connectOk : Bool) (dbpath uname upass : String) :
    Except Unit FBconn :=
  if connectOk then
    .ok { db_path := dbpath, uname := uname, upass := upass
          status_ok := true, active_tx := false }
  else
    .error ()

/-- The cached-entry branch of `firebirdInstantiateConnection`
(src/connection.c lines 278-307): the entry has a connection handle `c`.
If `FQstatus(c)` is not CONNECTION_BAD, the handle is used as is.
Otherwise the code emits a WARNING ("Firebird server connection has gone
away"), reconnects via `firebirdGetConnection` with the parameters pulled
from the existing handle (`FQdb_path`/`FQuname`/`FQupass`), replaces the
handle in place and emits a NOTICE ("reconnected to Firebird server").
`xact_depth` and `have_error` are not touched (the source comment at line 294
explicitly leaves "do we need to reset entry->xact_depth?" open).
The initial `FQreconnect` result at line 290 is discarded by the source
(immediately overwritten at line 297), so only the `firebirdGetConnection`
call is an observable connection attempt.
Result: new entry, number of connection attempts, whether the
warning-level notice was emitted. -/
def reconnectCachedConn (connectOk : Bool) (entry : ConnCacheEntry) (c : FBconn) :
    Except Unit (ConnCacheEntry × Nat × Bool) :=
  if c.status_ok then
    .ok (entry, 0, false)
  else
    match firebirdGetConnection connectOk c.db_path c.uname c.upass with
    | .error e => .error e
    | .ok new_conn => .ok ({ entry with conn := some new_conn }, 1, true)

/-- Per-entry handling of `fb_xact_callback` for XACT_EVENT_PRE_COMMIT
(src/connection.c lines 411-480).  The entry is skipped (no commit, state
unchanged) when the connection is NULL (line 418), when `xact_depth == 0`
(line 424), or when `FQisActiveTransaction` reports no active remote
transaction (line 432).  Otherwise one `FQcommitTransaction` is issued;
a failure raises ereport(ERROR) ("COMMIT failed"), modelled as
`Except.error`; on success `xact_depth` is reset to 0 (line 479).
Result: new entry and number of remote commits issued. -/
def fb_xact_precommit_entry (commitOk : Bool) (entry : ConnCacheEntry) :
    Except Unit (ConnCacheEntry × Nat) :=
  match entry.conn with
  | none => .ok (entry, 0)
  | some c =>
    if entry.xact_depth = 0 then .ok (entry, 0)
    else if c.active_tx = false then .ok (entry, 0)
    else if commitOk then .ok ({ entry with xact_depth := 0 }, 1)
    else .error ()

/-! ## Transaction coordinator state machine (src/connection.c)

For claim C1 we track, alongside the entry fields, how many savepoints
were ever pushed (`SAVEPOINT sN` issued by `fb_begin_remote_xact`) and
popped (`RELEASE SAVEPOINT` / `ROLLBACK TO SAVEPOINT` + release issued by
`fb_subxact_callback` when leaving a level). -/

structure XactRunState where
  xact_depth : Nat
  have_error : Bool
  pushed : Nat
  popped : Nat
deriving Repr, DecidableEq

def initialXactRunState : XactRunState :=
  { xact_depth := 0, have_error := false, pushed := 0, popped := 0 }

/-- Events driving the coordinator for one cached entry.  `ensureOpen l` is
`fb_begin_remote_xact` called with `GetCurrentTransactionNestLevel() = l`;
`subBegin` is a local subtransaction start (no coordinator action);
`subCommit l` / `subAbort l` are `fb_subxact_callback` with
SUBXACT_EVENT_PRE_COMMIT_SUB / SUBXACT_EVENT_ABORT_SUB at level `l`. -/
inductive CoordEvent where
  | ensureOpen (level : Nat)
  | subBegin
  | subCommit (level : Nat)
  | subAbort (level : Nat)
deriving Repr, DecidableEq

/-- `fb_begin_remote_xact` (src/connection.c lines 336-389): if
`xact_depth <= 0` issue SET TRANSACTION and set depth 1 (lines 345-361);
then while `xact_depth < curlevel` push one savepoint and increment the
depth (lines 377-388). -/
def fb_begin_remote_xact (curlevel : Nat) (s : XactRunState) : XactRunState :=
  let d1 := if s.xact_depth = 0 then 1 else s.xact_depth
  { s with xact_depth := max d1 curlevel, pushed := s.pushed + (curlevel - d1) }

/-- `fb_subxact_callback` body for one entry (src/connection.c lines
518-574): entries with `xact_depth < curlevel` are skipped (line 527);
`xact_depth > curlevel` raises elog(ERROR) "missed cleaning up remote
subtransaction" (line 530), modelled as `Except.error`; otherwise the
savepoint at the current level is released (commit) or rolled back and
released (abort, which also sets `have_error`, line 545), and the depth is
decremented (line 573). -/
def fb_subxact_close (isAbort : Bool) (curlevel : Nat) (s : XactRunState) :
    Except Unit XactRunState :=
  if s.xact_depth < curlevel then .ok s
  else if curlevel < s.xact_depth then .error ()
  else .ok { s with xact_depth := s.xact_depth - 1
                    have_error := s.have_error || isAbort
                    popped := s.popped + 1 }

def coordStep (s : XactRunState) : CoordEvent → Except Unit XactRunState
  | .ensureOpen l => .ok (fb_begin_remote_xact l s)
  | .subBegin => .ok s
  | .subCommit l => fb_subxact_close false l s
  | .subAbort l => fb_subxact_close true l s

def coordRun (s : XactRunState) : List CoordEvent → Except Unit XactRunState
  | [] => .ok s
  | e :: tr =>
    match coordStep s e with
    | .error u => .error u
    | .ok s2 => coordRun s2 tr

/-- Well-nested event sequences, as required by claim C1: `c` is the local
transaction nesting level (1 = top level).  `ensureOpen` always happens at
the current level (the source reads `GetCurrentTransactionNestLevel()`);
a subtransaction close event carries the level of the innermost open local
subtransaction (which is the current level, and is at least 2). -/
def wellNested : Nat → List CoordEvent → Bool
  | _, [] => true
  | c, .ensureOpen l :: tr => l == c && wellNested c tr
  | c, .subBegin :: tr => wellNested (c + 1) tr
  | c, .subCommit l :: tr => l == c && decide (2 ≤ c) && wellNested (c - 1) tr
  | c, .subAbort l :: tr => l == c && decide (2 ≤ c) && wellNested (c - 1) tr

/-- The net nesting depth implied by an event sequence, written from the
words of the specification (claim C1), independently of the coordinator
code: `ensure_open(l)` opens the entry up to level `l`; a subtransaction
close at level `l` brings an entry that participated in level `l` down to
`l - 1` and leaves shallower entries untouched. -/
def netDepthStep (d : Nat) : CoordEvent → Nat
  | .ensureOpen l => max d l
  | .subBegin => d
  | .subCommit l => min d (l - 1)
  | .subAbort l => min d (l - 1)

def netDepth (d : Nat) : List CoordEvent → Nat
  | [] => d
  | e :: tr => netDepth (netDepthStep d e) tr

/-! ## Expression tree data model (src/convert.c)

The PostgreSQL node shapes `foreign_expr_walker` and the `convert*`
renderers dispatch on.  Catalog lookups (operator / function name, schema,
built-in-ness, argument types) are carried in the nodes as the fields the
source reads from the syscache tuples.  Datum values are carried as the
text their PostgreSQL type-output function produces, since the source only
ever looks at that text. -/

inductive PgType where
  | textT | charT | bpcharT | varcharT | nameT
  | int2 | int4 | int8 | oidT | float4 | float8 | numericT
  | timestampT | timeT | dateT
  | boolT | bitT | varbitT | uuidT
  | otherT (oid : Nat)
deriving Repr, DecidableEq

/-- `canConvertPgType` macro (src/firebird_fdw.h lines 64-68). -/
def canConvertPgType : PgType → Bool
  | .textT | .charT | .bpcharT | .varcharT | .nameT
  | .int8 | .int2 | .int4 | .float4 | .float8 | .numericT
  | .dateT | .timestampT | .timeT => true
  | _ => false

/-- PostgreSQL `CoercionForm` (funcformat / relabelformat). -/
inductive CoercionForm where
  | explicitCall | explicitCast | implicitCast | sqlSyntax
deriving Repr, DecidableEq

/-- The catalog facts `foreign_expr_walker` / `canConvertOp` read about an
operator: its name, whether `is_builtin(opno)` holds (OID below
FirstGenbkiObjectId) and whether `oprnamespace == PG_CATALOG_NAMESPACE`. -/
structure OpInfo where
  oprname : String
  isBuiltin : Bool
  inPgCatalog : Bool
deriving Repr, DecidableEq

/-- The catalog facts read about a function from its pg_proc tuple. -/
structure FuncInfo where
  proname : String
  inPgCatalog : Bool
  resultType : PgType
deriving Repr, DecidableEq

inductive BoolExprKind where
  | andExpr | orExpr | notExpr
deriving Repr, DecidableEq

inductive BoolTestKind where
  | isTrue | isNotTrue | isFalse | isNotFalse | isUnknown | isNotUnknown
deriving Repr, DecidableEq

/-- Expression nodes.  `varE isForeignRel varlevelsup varattno vartype`
carries whether `varno` equals the foreign relation's relid.  `constE`
carries the type, null flag and output-function text.  `arrayOpE` is a
ScalarArrayOpExpr whose last argument is a Const array (as the renderer
asserts); its elements are output-function texts, `none` for a NULL
element; `leftargtype` is the operator's `oprleft`.  `otherNode` stands
for every node kind without a case in the source switch (the walker's
`default:` branch). -/
inductive FbExpr where
  | varE (isForeignRel : Bool) (varlevelsup : Nat) (varattno : Int) (vartype : PgType)
  | constE (consttype : PgType) (constisnull : Bool) (extval : String)
  | opE (op : OpInfo) (args : List FbExpr)
  | boolE (kind : BoolExprKind) (args : List FbExpr)
  | nullTestE (testIsNull : Bool) (arg : FbExpr)
  | boolTestE (kind : BoolTestKind) (arg : FbExpr)
  | arrayOpE (op : OpInfo) (useOr : Bool) (leftargtype : PgType)
      (left : FbExpr) (elems : List (Option String))
  | funcE (f : FuncInfo) (format : CoercionForm) (args : List FbExpr)
  | relabelE (format : CoercionForm) (arg : FbExpr)
  | otherNode (tag : Nat)

/-- `canConvertOp` (src/convert.c lines 2698-2752): pg_catalog only, the
fixed comparison/LIKE operator set, and `<<`/`>>` from Firebird 2.1. -/
def canConvertOp (op : OpInfo) (fb_version : Nat) : Bool :=
  if op.inPgCatalog = false then false
  else if op.oprname = "=" ∨ op.oprname = "<>" ∨ op.oprname = ">"
       ∨ op.oprname = "<" ∨ op.oprname = ">=" ∨ op.oprname = "<="
       ∨ op.oprname = "~~" ∨ op.oprname = "!~~"
       ∨ op.oprname = "~~*" ∨ op.oprname = "!~~*" then true
  else if 20100 ≤ fb_version ∧ (op.oprname = "<<" ∨ op.oprname = ">>") then true
  else false

/-- The source's substring check (src/convert.c lines 2550-2563) reads
`((Const *) arg)->consttype == INT4OID` on a positional argument without
checking that the node is a Const; for a non-Const node the C reads that
node's first field after the header (e.g. a Var's range-table index),
which is never the OID 23 in practice, so the check is modelled as: the
argument is a Const node of type INT4. -/
def argIsInt4Const : FbExpr → Bool
  | .constE ty _ _ => ty == .int4
  | _ => false

/-- Function names accepted from Firebird 2.0 (src/convert.c lines 2523-2528). -/
def fb20NameList : List String :=
  ["bit_length", "char_length", "character_length", "lower", "octet_length", "upper"]

/-- Function names accepted from Firebird 2.1 (src/convert.c lines 2574-2601). -/
def fb21NameList : List String :=
  ["abs", "acos", "asin", "atan", "atan2", "ceil", "ceiling", "cos", "cot",
   "exp", "floor", "ltrim", "length", "log", "mod", "nullif", "overlay",
   "position", "pow", "power", "reverse", "rtrim", "sign", "sin", "sqrt",
   "strpos", "tan", "trunc"]

/-- The function-name acceptance logic of the walker's T_FuncExpr case
after the recursion and schema checks (src/convert.c lines 2509-2617).
Note the substring branch (lines 2537-2567): `can_handle` starts false and
is set to true if the second argument is an INT4 Const, and again
(without ever being reset) if a third argument exists and is an INT4
Const; the branch returns `can_handle` whether true or false. -/
def canConvertFunction (fb_version : Nat) (name : String) (args : List FbExpr) : Bool :=
  if 10500 ≤ fb_version ∧ name = "concat" then true
  else if 10500 ≤ fb_version ∧ name = "coalesce" ∧ 2 ≤ args.length then true
  else if 20000 ≤ fb_version ∧ fb20NameList.contains name then true
  else if 20000 ≤ fb_version ∧ name = "substring"
       ∧ (args.length = 2 ∨ args.length = 3) then
    argIsInt4Const (args.getD 1 (.otherNode 0)) ||
      (decide (args.length = 3) && argIsInt4Const (args.getD 2 (.otherNode 0)))
  else if 20100 ≤ fb_version ∧ fb21NameList.contains name then true
  else if 20500 ≤ fb_version ∧ (name = "lpad" ∨ name = "rpad") then true
  else false

/-- Context for the walker: the live remote-engine version (`foreign_glob_cxt`,
src/convert.c lines 60-65; the planner fields are not needed because the
`varno == foreignrel->relid` comparison is carried in the Var node). -/
structure GlobCxt where
  firebird_version : Nat
deriving Repr, DecidableEq

mutual

/-- `foreign_expr_walker` (src/convert.c lines 2273-2651).  Case by case:
Var (lines 2289-2307): foreign-relation Vars with `varattno >= 1` only;
Const (2308-2314): everything except UUID; OpExpr (2315-2342): built-in,
`canConvertOp`, and delegable arguments; BoolExpr / NullTest / BooleanTest
(2344-2380): recurse; ScalarArrayOpExpr (2383-2441): built-in operator,
`= ANY` or `<> ALL` shape, convertible left argument type, delegable
arguments (the array Const itself always passes the T_Const case since an
array type OID is never UUIDOID); FuncExpr (2442-2618): convertible result
type, then implicit casts just recurse, otherwise recurse, require
pg_catalog and the version-gated name check; T_List (2619-2630): all
elements; RelabelType (2632-2639): recurse into the argument, with no check
of `relabelformat`; default (2641-2646): false. -/
def foreign_expr_walker (cxt : GlobCxt) : FbExpr → Bool
  | .varE isForeignRel varlevelsup varattno _ =>
    isForeignRel && decide (varlevelsup = 0) && decide (1 ≤ varattno)
  | .constE consttype _ _ => !(consttype == .uuidT)
  | .opE op args =>
    op.isBuiltin && canConvertOp op cxt.firebird_version &&
      foreign_expr_walkerList cxt args
  | .boolE _ args => foreign_expr_walkerList cxt args
  | .nullTestE _ arg => foreign_expr_walker cxt arg
  | .boolTestE _ arg => foreign_expr_walker cxt arg
  | .arrayOpE op useOr leftargtype left _ =>
    op.isBuiltin &&
      ((decide (op.oprname = "=") && useOr) ||
       (decide (op.oprname = "<>") && !useOr)) &&
      canConvertPgType leftargtype &&
      foreign_expr_walker cxt left
  | .funcE f format args =>
    canConvertPgType f.resultType &&
      (if format = .implicitCast then foreign_expr_walkerList cxt args
       else foreign_expr_walkerList cxt args && f.inPgCatalog &&
         canConvertFunction cxt.firebird_version f.proname args)
  | .relabelE _ arg => foreign_expr_walker cxt arg
  | .otherNode _ => false

/-- The walker's T_List case (src/convert.c lines 2619-2630). -/
def foreign_expr_walkerList (cxt : GlobCxt) : List FbExpr → Bool
  | [] => true
  | e :: rest => foreign_expr_walker cxt e && foreign_expr_walkerList cxt rest

end

mutual

/-- A node shape outside the source's fixed allow-list, read off the same
dispatch: a non-built-in (user-defined) operator in an operator or
set-membership application, a user-defined (non-pg_catalog) function in a
regular (non-implicit-cast) call, or a node kind with no walker case. -/
def containsDisallowed : FbExpr → Bool
  | .varE .. => false
  | .constE .. => false
  | .opE op args => !op.isBuiltin || containsDisallowedList args
  | .boolE _ args => containsDisallowedList args
  | .nullTestE _ arg => containsDisallowed arg
  | .boolTestE _ arg => containsDisallowed arg
  | .arrayOpE op _ _ left _ => !op.isBuiltin || containsDisallowed left
  | .funcE f format args =>
    (!(format == .implicitCast) && !f.inPgCatalog) || containsDisallowedList args
  | .relabelE _ arg => containsDisallowed arg
  | .otherNode _ => true

def containsDisallowedList : List FbExpr → Bool
  | [] => false
  | e :: rest => containsDisallowed e || containsDisallowedList rest

end

mutual

/-- A non-implicit (explicit) relabel/cast node occurring anywhere in the
tree — the shape claim C4 asserts the classifier rejects. -/
def hasNonImplicitRelabel : FbExpr → Bool
  | .varE .. => false
  | .constE .. => false
  | .opE _ args => hasNonImplicitRelabelList args
  | .boolE _ args => hasNonImplicitRelabelList args
  | .nullTestE _ arg => hasNonImplicitRelabel arg
  | .boolTestE _ arg => hasNonImplicitRelabel arg
  | .arrayOpE _ _ _ left _ => hasNonImplicitRelabel left
  | .funcE _ _ args => hasNonImplicitRelabelList args
  | .relabelE format arg =>
    !(format == .implicitCast) || hasNonImplicitRelabel arg
  | .otherNode _ => false

def hasNonImplicitRelabelList : List FbExpr → Bool
  | [] => false
  | e :: rest => hasNonImplicitRelabel e || hasNonImplicitRelabelList rest

end

/-! ## Remote SQL renderers (src/convert.c) -/

/-- The character loop of `convertStringLiteral` (src/convert.c lines
936-943): `SQL_STR_DOUBLE(ch, true)` doubles both single quotes and
backslashes. -/
def sqlStrEsc : List Char → List Char
  | [] => []
  | c :: cs =>
    (if c = '\'' ∨ c = '\\' then [c, c] else [c]) ++ sqlStrEsc cs

/-- `convertStringLiteral` (src/convert.c lines 930-945): quote-delimited,
with quotes and backslashes doubled. -/
def convertStringLiteral (val : String) : String :=
  ⟨'\'' :: sqlStrEsc val.data ++ ['\'']⟩

/-- The character loop of `convertDatum`'s string case (src/convert.c lines
666-671): only single quotes are doubled. -/
def datumStrEsc : List Char → List Char
  | [] => []
  | c :: cs =>
    (if c = '\'' then [c, c] else [c]) ++ datumStrEsc cs

/-- `convertDatum` (src/convert.c lines 637-713): type-directed rendering
of a datum's output-function text; string types are quoted with embedded
quotes doubled, numeric types pass through, temporal types are quoted
verbatim, booleans become TRUE/FALSE from the first output character, and
any other type logs a warning and returns NULL (modelled as `none`). -/
def convertDatum (val : String) (ty : PgType) : Option String :=
  match ty with
  | .textT | .charT | .bpcharT | .varcharT | .nameT =>
    some ⟨'\'' :: datumStrEsc val.data ++ ['\'']⟩
  | .int8 | .int2 | .int4 | .oidT | .float4 | .float8 | .numericT =>
    some val
  | .timestampT | .timeT | .dateT =>
    some ("'" ++ val ++ "'")
  | .boolT =>
    some (match val.data with
          | 't' :: _ => "TRUE"
          | _ => "FALSE")
  | _ => none

/-- `convertConst` (src/convert.c lines 1129-1199): NULL renders as the
keyword NULL; numeric types pass their output text through; BOOL renders
as the native keywords from Firebird 3.0 and raises
ereport(ERROR, "BOOLEAN datatype supported from Firebird 3.0") below that
(modelled as `none`); OID / BIT / VARBIT raise an unsupported-data-type
error; everything else (including UUID) falls through to
`convertStringLiteral`. -/
def convertConst (fb_version : Nat) (consttype : PgType) (constisnull : Bool)
    (extval : String) : Option String :=
  if constisnull then some "NULL"
  else
    match consttype with
    | .int2 | .int4 | .int8 | .float4 | .float8 | .numericT => some extval
    | .boolT =>
      if 30000 ≤ fb_version then
        some (if extval = "t" then "true" else "false")
      else none
    | .oidT | .bitT | .varbitT => none
    | _ => some (convertStringLiteral extval)

/-- The native-BOOLEAN branch of `convertBooleanTest` (src/convert.c lines
1383-1411), as a function of the rendered child expression text. -/
def convertBooleanTestNative (kind : BoolTestKind) (x : String) : String :=
  match kind with
  | .isTrue => "(" ++ x ++ " IS TRUE)"
  | .isNotTrue => "(" ++ x ++ " IS FALSE) OR (" ++ x ++ " IS NULL)"
  | .isFalse => "(" ++ x ++ " IS FALSE)"
  | .isNotFalse => "(" ++ x ++ " IS TRUE) OR (" ++ x ++ " IS NULL)"
  | .isUnknown => "(" ++ x ++ " IS NULL)"
  | .isNotUnknown => "(" ++ x ++ " IS NOT NULL)"

/-- The implicit-boolean branch of `convertBooleanTest` (src/convert.c
lines 1421-1452), as a function of the rendered child expression text
(the child Var is rendered with `check_implicit_bool` off, so `x` is the
bare column reference). -/
def convertBooleanTestImplicit (kind : BoolTestKind) (x : String) : String :=
  match kind with
  | .isTrue => "(" ++ x ++ " <> 0)"
  | .isNotTrue => "(" ++ x ++ " = 0) OR (" ++ x ++ " IS NULL)"
  | .isFalse => "(" ++ x ++ " = 0)"
  | .isNotFalse => "(" ++ x ++ " <> 0) OR (" ++ x ++ " IS NULL)"
  | .isUnknown => "(" ++ x ++ " IS NULL)"
  | .isNotUnknown => "(" ++ x ++ " IS NOT NULL)"

/-- `convertBooleanTest` (src/convert.c lines 1318-1455): dispatch between
the two branches on the computed `implicit_bool_type` flag. -/
def convertBooleanTest (implicit_bool_type : Bool) (kind : BoolTestKind)
    (x : String) : String :=
  if implicit_bool_type = false then convertBooleanTestNative kind x
  else convertBooleanTestImplicit kind x

/-- The element loop of `convertScalarArrayOpExpr` (src/convert.c lines
1670-1690): NULL elements render as the keyword NULL; others go through
`convertDatum` at the operator's left argument type, and a `convertDatum`
failure aborts the whole conversion (early return with no result). -/
def renderArrayElems (ty : PgType) : List (Option String) → Option (List String)
  | [] => some []
  | none :: rest => (renderArrayElems ty rest).map (fun ts => "NULL" :: ts)
  | some v :: rest =>
    match convertDatum v ty with
    | none => none
    | some c => (renderArrayElems ty rest).map (fun ts => c :: ts)

/-- `convertScalarArrayOpExpr` (src/convert.c lines 1631-1698), given the
already-rendered left operand text `left`: builds
`(left [NOT] IN (v1, v2, ...))`.  If any element fails to convert, or the
array is empty (`first_arg` still true after the loop, line 1693), the
function returns without setting `*result`, modelled as `none`. -/
def convertScalarArrayOpExpr (left : String) (useOr : Bool) (leftargtype : PgType)
    (elems : List (Option String)) : Option String :=
  match renderArrayElems leftargtype elems with
  | none => none
  | some [] => none
  | some (t :: ts) =>
    some ("(" ++ left ++ (if useOr then " IN (" else " NOT IN (") ++
      String.intercalate ", " (t :: ts) ++ "))")

/-- `buildWhereClause` (src/convert.c lines 324-368), given the
`convertExpr` result for each accepted clause (`none` when
`convertExprRecursor` left `*result` NULL, in which case `convertExpr`
appends nothing, src/convert.c lines 961-970): each clause is joined with
WHERE / AND and parenthesized unconditionally (lines 353-364). -/
def buildWhereClause (clauses : List (Option String)) (is_first : Bool) : String :=
  match clauses with
  | [] => ""
  | c :: rest =>
    (if is_first then " WHERE " else " AND ") ++
      "(" ++ (match c with | some s => s | none => "") ++ ")" ++
      buildWhereClause rest false

/-! ## Target list assembly (src/convert.c `convertTargetList`) -/

/-- One attribute of the local relation's tuple descriptor, together with
the facts `convertTargetList` reads about it: dropped flag, whether its
type is BOOLOID, the per-column `implicit_bool_type` option, whether
`attrs_used` selects it, and the text `convertColumnRef` renders for it. -/
structure TLColumn where
  attisdropped : Bool
  typeIsBool : Bool
  colImplicitBool : Bool
  selected : Bool
  colText : String
deriving Repr, DecidableEq

/-- The per-column text of `convertTargetList` (src/convert.c lines
2099-2151): implicit-boolean columns are mangled to `col <> 0` on
Firebird 3.0+, to a CASE expression in SELECT lists on older versions,
and left untouched otherwise. -/
def tlColumnText (for_select use_implicit_bool : Bool) (fb_version : Nat)
    (c : TLColumn) : String :=
  if use_implicit_bool && c.typeIsBool && c.colImplicitBool then
    if 30000 ≤ fb_version then c.colText ++ " <> 0"
    else if for_select then
      "CASE WHEN " ++ c.colText ++ " <> 0 THEN 1 ELSE " ++ c.colText ++
        " END AS " ++ c.colText
    else c.colText
  else c.colText

/-- The attribute loop of `convertTargetList` (src/convert.c lines
2076-2155): dropped attributes are skipped; attributes selected by a
whole-row reference or by `attrs_used` are emitted comma-separated and
appended (1-based) to `retrieved_attrs`.  Returns the emitted text, the
retrieved attribute numbers, and the final value of `first`. -/
def tlLoop (have_wholerow for_select use_implicit_bool : Bool) (fb_version : Nat) :
    List TLColumn → Nat → Bool → String × List Int × Bool
  | [], _, first => ("", [], first)
  | c :: rest, i, first =>
    if c.attisdropped then
      tlLoop have_wholerow for_select use_implicit_bool fb_version rest (i + 1) first
    else if have_wholerow || c.selected then
      let tail := tlLoop have_wholerow for_select use_implicit_bool fb_version
        rest (i + 1) false
      ((if first then "" else ", ") ++
         tlColumnText for_select use_implicit_bool fb_version c ++ tail.1,
       (i : Int) :: tail.2.1, tail.2.2)
    else
      tlLoop have_wholerow for_select use_implicit_bool fb_version rest (i + 1) first

/-- `convertTargetList` (src/convert.c lines 2042-2178): the attribute
loop, then `rdb$db_key` when the self-item-pointer system attribute
(attribute number -1) is requested (lines 2157-2173), then the `NULL`
placeholder when nothing at all was emitted (lines 2175-2177).  Returns
the emitted text, `retrieved_attrs` and `db_key_used`. -/
def convertTargetList (have_wholerow for_select use_implicit_bool : Bool)
    (fb_version : Nat) (cols : List TLColumn) (dbKeyRequested : Bool) :
    String × List Int × Bool :=
  let loop := tlLoop have_wholerow for_select use_implicit_bool fb_version cols 1 true
  if dbKeyRequested then
    (loop.1 ++ (if loop.2.2 then "" else ", ") ++ "rdb$db_key",
     loop.2.1 ++ [(-1 : Int)], true)
  else if loop.2.2 then (loop.1 ++ "NULL", loop.2.1, false)
  else (loop.1, loop.2.1, false)

/-! ## String-shape helpers used to state the rendering claims -/

/-- Scan the characters after an opening quote of a SQL string literal:
a doubled quote is an escaped quote, a single quote closes the literal.
Returns the remaining characters after the closing quote, or `none` when
the literal never closes. -/
def scanQuoted : List Char → Option (List Char)
  | [] => none
  | [c] => if c = '\'' then some [] else none
  | c :: c2 :: rest =>
    if c = '\'' then
      if c2 = '\'' then scanQuoted rest else some (c2 :: rest)
    else scanQuoted (c2 :: rest)

/-- Parse one complete quoted SQL token: an opening quote, then a body
scanned by `scanQuoted`.  Returns the characters after the token. -/
def parseQuotedTok : List Char → Option (List Char)
  | '\'' :: rest => scanQuoted rest
  | _ => none

/-- Whether a character list starts with the four characters of `" OR "`. -/
def startsWithORtok : List Char → Bool
  | a :: b :: c :: d :: _ => a == ' ' && b == 'O' && c == 'R' && d == ' '
  | _ => false

/-- Whether `" OR "` occurs anywhere in a character list. -/
def hasORtok : List Char → Bool
  | [] => false
  | c :: rest => startsWithORtok (c :: rest) || hasORtok rest

/-! ## Helper lemmas -/

theorem startsWithORtok_cons (a : Char) (rest : List Char) (ha : a ≠ ' ') :
    startsWithORtok (a :: rest) = false := by
  have hbeq : (a == ' ') = false := by simp [ha]
  match rest with
  | [] => rfl
  | [_] => rfl
  | [_, _] => rfl
  | _ :: _ :: _ :: _ => simp [startsWithORtok, hbeq]

theorem hasORtok_append (l₁ l₂ : List Char) (h₁ : ∀ c ∈ l₁, c ≠ ' ')
    (h₂ : hasORtok l₂ = false) : hasORtok (l₁ ++ l₂) = false := by
  induction l₁ with
  | nil => simpa using h₂
  | cons a l ih =>
    have ha : a ≠ ' ' := h₁ a (by simp)
    have hrest : ∀ c ∈ l, c ≠ ' ' := fun c hc => h₁ c (by simp [hc])
    simp only [List.cons_append, hasORtok]
    rw [startsWithORtok_cons a _ ha]
    simpa [List.append_eq] using ih hrest

theorem scanQuoted_cons_ne (c : Char) (l : List Char) (h : c ≠ '\'') :
    scanQuoted (c :: l) = scanQuoted l := by
  match l with
  | [] => simp [scanQuoted, h]
  | c2 :: rest => simp [scanQuoted, h]

theorem scanQuoted_quote_quote (l : List Char) :
    scanQuoted ('\'' :: '\'' :: l) = scanQuoted l := by
  simp [scanQuoted]

theorem scanQuoted_sqlStrEsc (cs : List Char) :
    scanQuoted (sqlStrEsc cs ++ ['\'']) = some [] := by
  induction cs with
  | nil => rfl
  | cons c cs ih =>
    simp only [sqlStrEsc, List.append_assoc]
    by_cases hq : c = '\''
    · subst hq
      rw [if_pos (Or.inl rfl)]
      simpa [scanQuoted_quote_quote] using ih
    · by_cases hb : c = '\\'
      · subst hb
        rw [if_pos (Or.inr rfl)]
        simp only [List.cons_append, List.nil_append]
        rw [scanQuoted_cons_ne _ _ (by decide), scanQuoted_cons_ne _ _ (by decide)]
        exact ih
      · rw [if_neg (by tauto)]
        simp only [List.cons_append, List.nil_append]
        rw [scanQuoted_cons_ne _ _ hq]
        exact ih

theorem scanQuoted_datumStrEsc (cs : List Char) :
    scanQuoted (datumStrEsc cs ++ ['\'']) = some [] := by
  induction cs with
  | nil => rfl
  | cons c cs ih =>
    simp only [datumStrEsc, List.append_assoc]
    by_cases hq : c = '\''
    · subst hq
      rw [if_pos rfl]
      simpa [scanQuoted_quote_quote] using ih
    · rw [if_neg hq]
      simp only [List.cons_append, List.nil_append]
      rw [scanQuoted_cons_ne _ _ hq]
      exact ih

theorem count_sqlStrEsc (cs : List Char) :
    (sqlStrEsc cs).count '\'' = 2 * cs.count '\'' := by
  induction cs with
  | nil => rfl
  | cons c cs ih =>
    simp only [sqlStrEsc]
    by_cases hq : c = '\''
    · subst hq
      rw [if_pos (Or.inl rfl)]
      simp [List.count_cons, ih]
      omega
    · by_cases hb : c = '\\'
      · subst hb
        rw [if_pos (Or.inr rfl)]
        simp [List.count_cons, ih]
      · rw [if_neg (by tauto)]
        simp [List.count_cons, ih, hq]

theorem count_datumStrEsc (cs : List Char) :
    (datumStrEsc cs).count '\'' = 2 * cs.count '\'' := by
  induction cs with
  | nil => rfl
  | cons c cs ih =>
    simp only [datumStrEsc]
    by_cases hq : c = '\''
    · subst hq
      rw [if_pos rfl]
      simp [List.count_cons, ih]
      omega
    · rw [if_neg hq]
      simp [List.count_cons, ih, hq]

/-! ## Claim C3: reconnect of a broken cached connection -/

/-- C3: when `firebirdInstantiateConnection` finds a cached connection whose
liveness check (`FQstatus`) reports it broken, it performs exactly one
reconnect attempt using the parameters stored in the existing handle,
replaces the handle in place in the same cache entry, emits a
warning-level notice, and leaves `xact_depth` and `have_error` unchanged
(in particular `xact_depth` is not reset to 0). -/
theorem reconnect_preserves_entry (entry : ConnCacheEntry) (c : FBconn)
    (hbad : c.status_ok = false) :
    ∃ nc,
      reconnectCachedConn true entry c = .ok ({ entry with conn := some nc }, 1, true) ∧
      nc.db_path = c.db_path ∧ nc.uname = c.uname ∧ nc.upass = c.upass ∧
      ({ entry with conn := some nc } : ConnCacheEntry).xact_depth = entry.xact_depth ∧
      ({ entry with conn := some nc } : ConnCacheEntry).have_error = entry.have_error := by
  refine ⟨{ db_path := c.db_path, uname := c.uname, upass := c.upass
            status_ok := true, active_tx := false }, ?_, rfl, rfl, rfl, rfl, rfl⟩
  simp [reconnectCachedConn, firebirdGetConnection, hbad]

def reconnectWitnessEntry : ConnCacheEntry :=
  { conn := some { db_path := "server:emp", uname := "sysdba", upass := "pw"
                   status_ok := false, active_tx := false },
    xact_depth := 2, have_error := false }

def reconnectWitnessConn : FBconn :=
  { db_path := "server:emp", uname := "sysdba", upass := "pw"
    status_ok := false, active_tx := false }

/-- C3 witness: the theorem applied to a concrete broken connection with
`xact_depth = 2`. -/
theorem reconnect_preserves_entry_witness :
    ∃ nc,
      reconnectCachedConn true reconnectWitnessEntry reconnectWitnessConn
          = .ok ({ reconnectWitnessEntry with conn := some nc }, 1, true) ∧
      nc.db_path = reconnectWitnessConn.db_path ∧
      nc.uname = reconnectWitnessConn.uname ∧
      nc.upass = reconnectWitnessConn.upass ∧
      ({ reconnectWitnessEntry with conn := some nc } : ConnCacheEntry).xact_depth
          = reconnectWitnessEntry.xact_depth ∧
      ({ reconnectWitnessEntry with conn := some nc } : ConnCacheEntry).have_error
          = reconnectWitnessEntry.have_error :=
  reconnect_preserves_entry reconnectWitnessEntry reconnectWitnessConn rfl

/-! ## Claim C2: local pre-commit commits open remote transactions -/

def precommitInactiveEntry : ConnCacheEntry :=
  { conn := some { db_path := "server:emp", uname := "sysdba", upass := "pw"
                   status_ok := true, active_tx := false },
    xact_depth := 1, have_error := false }

/-- C2 counterexample: a cached entry with a live connection and
`xact_depth = 1` but no active remote transaction (the state the reconnect
path leaves behind, since reconnecting does not reset `xact_depth`): the
pre-commit callback skips it at the `FQisActiveTransaction` check
(src/connection.c line 432), so zero commits are issued and `xact_depth`
stays 1 instead of being reset to 0. -/
theorem precommit_skips_inactive_tx :
    precommitInactiveEntry.conn.isSome = true ∧
    precommitInactiveEntry.xact_depth = 1 ∧
    fb_xact_precommit_entry true precommitInactiveEntry
        = .ok (precommitInactiveEntry, 0) :=
  ⟨rfl, rfl, rfl⟩

/-- C2 (amended): for every cached entry with a live connection,
`xact_depth ≥ 1` and an active remote transaction as reported by the
driver, exactly one remote commit is issued; a commit failure raises a
fatal error; on success `xact_depth` is reset to 0. -/
theorem precommit_commits_active_entry (commitOk : Bool) (e : ConnCacheEntry)
    (c : FBconn) (hc : e.conn = some c) (hd : 1 ≤ e.xact_depth)
    (ha : c.active_tx = true) :
    (commitOk = true →
       fb_xact_precommit_entry commitOk e = .ok ({ e with xact_depth := 0 }, 1)) ∧
    (commitOk = false → fb_xact_precommit_entry commitOk e = .error ()) := by
  have hd0 : ¬ e.xact_depth = 0 := by omega
  constructor <;> intro hok <;> subst hok <;>
    simp [fb_xact_precommit_entry, hc, ha, hd0]

def precommitActiveEntry : ConnCacheEntry :=
  { conn := some { db_path := "server:emp", uname := "sysdba", upass := "pw"
                   status_ok := true, active_tx := true },
    xact_depth := 1, have_error := false }

/-- C2 witness: the amended theorem applied to a concrete entry with an
active remote transaction, for both commit outcomes. -/
theorem precommit_commits_active_entry_witness :
    fb_xact_precommit_entry true precommitActiveEntry
        = .ok ({ precommitActiveEntry with xact_depth := 0 }, 1) ∧
    fb_xact_precommit_entry false precommitActiveEntry = .error () :=
  ⟨(precommit_commits_active_entry true precommitActiveEntry
      { db_path := "server:emp", uname := "sysdba", upass := "pw"
        status_ok := true, active_tx := true } rfl (by decide) rfl).1 rfl,
   (precommit_commits_active_entry false precommitActiveEntry
      { db_path := "server:emp", uname := "sysdba", upass := "pw"
        status_ok := true, active_tx := true } rfl (by decide) rfl).2 rfl⟩

/-! ## Claim C6: implicit-boolean rendering of boolean tests -/

/-- C6: for a boolean column in implicit-boolean mode (rendered operand
text `x`, a column reference containing no space), `IS NOT TRUE` and
`IS NOT FALSE` each render as a two-branch OR whose second branch is an
IS NULL test on the same operand, in integer-comparison form, while plain
`IS TRUE` and `IS FALSE` render as a single comparison containing no
`" OR "` at all. -/
theorem booleanTest_implicit_or_shape (x : String) (hx : ∀ c ∈ x.data, c ≠ ' ') :
    convertBooleanTestImplicit .isNotTrue x
        = "(" ++ x ++ " = 0) OR (" ++ x ++ " IS NULL)" ∧
    convertBooleanTestImplicit .isNotFalse x
        = "(" ++ x ++ " <> 0) OR (" ++ x ++ " IS NULL)" ∧
    hasORtok (convertBooleanTestImplicit .isTrue x).data = false ∧
    hasORtok (convertBooleanTestImplicit .isFalse x).data = false := by
  have hmem : ∀ c ∈ '(' :: x.data, c ≠ ' ' := by
    intro c hc
    rcases List.mem_cons.mp hc with h | h
    · subst h; decide
    · exact hx c h
  refine ⟨rfl, rfl, ?_, ?_⟩
  · have hdata : (convertBooleanTestImplicit .isTrue x).data
        = ('(' :: x.data) ++ (" <> 0)" : String).data := by
      show ("(" ++ x ++ " <> 0)" : String).data = _
      simp [String.data_append]
    rw [hdata]
    exact hasORtok_append _ _ hmem (by decide)
  · have hdata : (convertBooleanTestImplicit .isFalse x).data
        = ('(' :: x.data) ++ (" = 0)" : String).data := by
      show ("(" ++ x ++ " = 0)" : String).data = _
      simp [String.data_append]
    rw [hdata]
    exact hasORtok_append _ _ hmem (by decide)

/-- C6 witness: the theorem applied to the concrete column reference
`col1`. -/
theorem booleanTest_implicit_or_shape_witness :
    convertBooleanTestImplicit .isNotTrue "col1"
        = "(" ++ "col1" ++ " = 0) OR (" ++ "col1" ++ " IS NULL)" ∧
    convertBooleanTestImplicit .isNotFalse "col1"
        = "(" ++ "col1" ++ " <> 0) OR (" ++ "col1" ++ " IS NULL)" ∧
    hasORtok (convertBooleanTestImplicit .isTrue "col1").data = false ∧
    hasORtok (convertBooleanTestImplicit .isFalse "col1").data = false :=
  booleanTest_implicit_or_shape "col1" (by decide)

/-! ## Claim C8: string literal quoting -/

/-- C8: for every string-typed literal value containing at least one
single-quote character, both string renderers (`convertStringLiteral` and
the string case of `convertDatum`) produce text that starts and ends with
a single-quote delimiter, whose interior contains each source quote
character doubled (interior quote count = twice the source quote count),
and that parses as exactly one quoted token with nothing left over. -/
theorem stringLiteral_quoting (s : String) (_hs : 1 ≤ s.data.count '\'') :
    ∃ body1 body2,
      (convertStringLiteral s).data = '\'' :: body1 ++ ['\''] ∧
      body1.count '\'' = 2 * s.data.count '\'' ∧
      parseQuotedTok (convertStringLiteral s).data = some [] ∧
      convertDatum s .textT = some ⟨'\'' :: body2 ++ ['\'']⟩ ∧
      body2.count '\'' = 2 * s.data.count '\'' ∧
      parseQuotedTok ('\'' :: body2 ++ ['\'']) = some [] := by
  refine ⟨sqlStrEsc s.data, datumStrEsc s.data, rfl, count_sqlStrEsc s.data,
    ?_, rfl, count_datumStrEsc s.data, ?_⟩
  · show scanQuoted (sqlStrEsc s.data ++ ['\'']) = some []
    exact scanQuoted_sqlStrEsc s.data
  · show scanQuoted (datumStrEsc s.data ++ ['\'']) = some []
    exact scanQuoted_datumStrEsc s.data

/-- C8 witness: the theorem applied to the concrete value `d'Arcy`. -/
theorem stringLiteral_quoting_witness :
    ∃ body1 body2,
      (convertStringLiteral "d'Arcy").data = '\'' :: body1 ++ ['\''] ∧
      body1.count '\'' = 2 * ("d'Arcy" : String).data.count '\'' ∧
      parseQuotedTok (convertStringLiteral "d'Arcy").data = some [] ∧
      convertDatum "d'Arcy" .textT = some ⟨'\'' :: body2 ++ ['\'']⟩ ∧
      body2.count '\'' = 2 * ("d'Arcy" : String).data.count '\'' ∧
      parseQuotedTok ('\'' :: body2 ++ ['\'']) = some [] :=
  stringLiteral_quoting "d'Arcy" (by decide)

/-! ## Claim C9: boolean literal rendering -/

/-- C9 counterexample: on a remote engine without a native boolean type
(version 25000 < 30000), `convertConst` raises the fatal error
"BOOLEAN datatype supported from Firebird 3.0" (modelled as `none`) for a
boolean literal; it never renders the integers "0"/"1", with or without
the implicit-boolean compatibility mode. -/
theorem boolConst_fb25_errors :
    convertConst 25000 .boolT false "t" = none ∧
    convertConst 25000 .boolT false "f" = none :=
  ⟨rfl, rfl⟩

/-- C9 (amended): a boolean literal renders as the native keywords
true/false when the remote engine version supports a boolean type
(version ≥ 30000); on an older engine `convertConst` raises a fatal error
instead of rendering "0"/"1" (the implicit-boolean mode affects column
references and boolean tests, not literals). -/
theorem boolConst_rendering (fb_version : Nat) (extval : String) :
    (30000 ≤ fb_version →
       convertConst fb_version .boolT false extval
         = some (if extval = "t" then "true" else "false")) ∧
    (fb_version < 30000 → convertConst fb_version .boolT false extval = none) := by
  constructor <;> intro h
  · show (if 30000 ≤ fb_version then some (if extval = "t" then "true" else "false")
          else none) = some (if extval = "t" then "true" else "false")
    rw [if_pos h]
  · show (if 30000 ≤ fb_version then some (if extval = "t" then "true" else "false")
          else none) = none
    rw [if_neg (by omega)]

/-- C9 witness: the amended theorem applied at versions 30000 and 20500. -/
theorem boolConst_rendering_witness :
    convertConst 30000 .boolT false "t" = some "true" ∧
    convertConst 20500 .boolT false "f" = none :=
  ⟨by simpa using (boolConst_rendering 30000 "t").1 (by norm_num),
   (boolConst_rendering 20500 "f").2 (by norm_num)⟩

/-! ## Claim C10: NULL placeholder for empty target lists -/

theorem tlLoop_nothing (have_wholerow for_select use_implicit_bool : Bool)
    (fb_version : Nat) (cols : List TLColumn)
    (h : ∀ c ∈ cols, c.attisdropped = true ∨ (have_wholerow || c.selected) = false) :
    ∀ (i : Nat) (first : Bool),
      tlLoop have_wholerow for_select use_implicit_bool fb_version cols i first
        = ("", [], first) := by
  induction cols with
  | nil => intro i first; rfl
  | cons c rest ih =>
    intro i first
    have hc := h c (by simp)
    have hrest : ∀ c ∈ rest, c.attisdropped = true ∨ (have_wholerow || c.selected) = false :=
      fun c hmem => h c (by simp [hmem])
    by_cases hdrop : c.attisdropped = true
    · rw [tlLoop, if_pos hdrop]
      exact ih hrest (i + 1) first
    · have hsel : (have_wholerow || c.selected) = false := by tauto
      rw [tlLoop, if_neg hdrop, if_neg (by simp [hsel])]
      exact ih hrest (i + 1) first

/-- C10: when no undropped column is selected (neither individually nor
via a whole-row reference) and the row-identity pseudo-column
(`rdb$db_key`) is not requested, `convertTargetList` emits the
placeholder text "NULL" instead of an empty column list, and the
retrieved-attribute list is empty. -/
theorem targetList_null_placeholder (have_wholerow for_select use_implicit_bool : Bool)
    (fb_version : Nat) (cols : List TLColumn)
    (h : ∀ c ∈ cols, c.attisdropped = true ∨ (have_wholerow || c.selected) = false) :
    convertTargetList have_wholerow for_select use_implicit_bool fb_version cols false
      = ("NULL", [], false) := by
  rw [convertTargetList]
  rw [tlLoop_nothing have_wholerow for_select use_implicit_bool fb_version cols h 1 true]
  rfl

/-- C10 witness: the theorem applied to a relation with one dropped column
and one unselected column. -/
theorem targetList_null_placeholder_witness :
    convertTargetList false true false 30000
      [{ attisdropped := true, typeIsBool := false, colImplicitBool := false
         selected := true, colText := "a" },
       { attisdropped := false, typeIsBool := false, colImplicitBool := false
         selected := false, colText := "b" }] false
      = ("NULL", [], false) :=
  targetList_null_placeholder false true false 30000 _ (by decide)

/-! ## Claim C4: the classifier rejects disallowed node shapes -/

def explicitRelabelTree : FbExpr := .relabelE .explicitCast (.varE true 0 1 .int4)

/-- C4 counterexample: the classifier accepts a tree containing a
non-implicit (explicit) relabel node — the walker's T_RelabelType case
(src/convert.c lines 2632-2639) recurses into the argument without
checking `relabelformat`, so the claim that such trees are classified
false fails (the fatal error for explicit relabels is raised only at
render time, in `convertRelabelType`, src/convert.c lines 1610-1623). -/
theorem walker_accepts_explicit_relabel :
    hasNonImplicitRelabel explicitRelabelTree = true ∧
    foreign_expr_walker ⟨20500⟩ explicitRelabelTree = true :=
  ⟨rfl, rfl⟩

mutual

theorem walker_rejects_disallowed_aux (cxt : GlobCxt) :
    ∀ e : FbExpr, containsDisallowed e = true → foreign_expr_walker cxt e = false
  | .varE _ _ _ _, h => by simp [containsDisallowed] at h
  | .constE _ _ _, h => by simp [containsDisallowed] at h
  | .opE op args, h => by
    simp only [containsDisallowed, Bool.or_eq_true, Bool.not_eq_true'] at h
    rcases h with h | h
    · simp [foreign_expr_walker, h]
    · simp [foreign_expr_walker, walkerList_rejects_disallowed_aux cxt args h]
  | .boolE kind args, h => by
    simp only [containsDisallowed] at h
    simp [foreign_expr_walker, walkerList_rejects_disallowed_aux cxt args h]
  | .nullTestE b arg, h => by
    simp only [containsDisallowed] at h
    simp only [foreign_expr_walker]
    exact walker_rejects_disallowed_aux cxt arg h
  | .boolTestE kind arg, h => by
    simp only [containsDisallowed] at h
    simp only [foreign_expr_walker]
    exact walker_rejects_disallowed_aux cxt arg h
  | .arrayOpE op useOr lty left elems, h => by
    simp only [containsDisallowed, Bool.or_eq_true, Bool.not_eq_true'] at h
    rcases h with h | h
    · simp [foreign_expr_walker, h]
    · simp [foreign_expr_walker, walker_rejects_disallowed_aux cxt left h]
  | .funcE f format args, h => by
    simp only [containsDisallowed, Bool.or_eq_true, Bool.and_eq_true,
      Bool.not_eq_true', beq_eq_false_iff_ne] at h
    rcases h with ⟨hfmt, hpg⟩ | h
    · simp [foreign_expr_walker, if_neg hfmt, hpg]
    · have := walkerList_rejects_disallowed_aux cxt args h
      by_cases hfmt : format = .implicitCast
      · simp [foreign_expr_walker, if_pos hfmt, this]
      · simp [foreign_expr_walker, if_neg hfmt, this]
  | .relabelE format arg, h => by
    simp only [containsDisallowed] at h
    simp only [foreign_expr_walker]
    exact walker_rejects_disallowed_aux cxt arg h
  | .otherNode _, _ => rfl

theorem walkerList_rejects_disallowed_aux (cxt : GlobCxt) :
    ∀ l : List FbExpr, containsDisallowedList l = true →
      foreign_expr_walkerList cxt l = false
  | e :: rest, h => by
    simp only [containsDisallowedList, Bool.or_eq_true] at h
    rcases h with h | h
    · simp [foreign_expr_walkerList, walker_rejects_disallowed_aux cxt e h]
    · simp [foreign_expr_walkerList, walkerList_rejects_disallowed_aux cxt rest h]

end

/-- C4 (amended): for every expression tree containing at least one node
shape outside the fixed allow-list — a non-built-in (user-defined)
operator, a user-defined (non-pg_catalog) function invoked as a regular
(non-implicit-cast) call, or any node kind without a walker case — the
classifier returns false.  (An explicit relabel, by contrast, is accepted
by the classifier whenever its child is; the error surfaces only at
render time.) -/
theorem walker_rejects_disallowed (cxt : GlobCxt) (e : FbExpr)
    (h : containsDisallowed e = true) : foreign_expr_walker cxt e = false :=
  walker_rejects_disallowed_aux cxt e h

/-- C4 witness: the amended theorem applied to a tree headed by an
unhandled node kind. -/
theorem walker_rejects_disallowed_witness :
    containsDisallowed (.otherNode 5) = true ∧
    foreign_expr_walker ⟨20500⟩ (.otherNode 5) = false :=
  ⟨rfl, walker_rejects_disallowed ⟨20500⟩ (.otherNode 5) rfl⟩

/-! ## Claim C5: substring pushdown and integer-literal arguments -/

def substrNonLiteralArgs : List FbExpr :=
  [.varE true 0 1 .textT, .varE true 0 2 .int4, .constE .int4 false "3"]

def substrNonLiteralTree : FbExpr :=
  .funcE { proname := "substring", inPgCatalog := true, resultType := .textT }
    .explicitCall substrNonLiteralArgs

/-- C5 counterexample: an arity-3 substring call whose second positional
argument is a column reference (not an integer literal) but whose third
argument is an INT4 literal is accepted by the classifier — the source's
`can_handle` flag (src/convert.c lines 2541-2566) is set by either
positional argument and never reset, so the claim that every positional
start/length argument of an accepted call is an integer literal fails. -/
theorem substring_accepted_nonliteral_arg :
    foreign_expr_walker ⟨20500⟩ substrNonLiteralTree = true ∧
    argIsInt4Const (substrNonLiteralArgs.getD 1 (.otherNode 0)) = false :=
  ⟨rfl, rfl⟩

/-- C5 (amended): a substring call of arity 2 or 3 is accepted by the
classifier only if at least one of its positional start/length arguments
is an INT4 integer literal: the second argument, or — for arity 3 — the
third.  In particular the FROM-pattern-FOR-escape variant, none of whose
positional arguments are integer literals, is classified as not
delegable. -/
theorem substring_pushdown_needs_int_literal (fb_version : Nat) (f : FuncInfo)
    (format : CoercionForm) (args : List FbExpr)
    (hname : f.proname = "substring") (hfmt : format ≠ .implicitCast)
    (hlen : args.length = 2 ∨ args.length = 3)
    (hacc : foreign_expr_walker ⟨fb_version⟩ (.funcE f format args) = true) :
    argIsInt4Const (args.getD 1 (.otherNode 0)) = true ∨
      (args.length = 3 ∧ argIsInt4Const (args.getD 2 (.otherNode 0)) = true) := by
  have hfn : canConvertFunction fb_version f.proname args = true := by
    simp only [foreign_expr_walker, Bool.and_eq_true] at hacc
    rcases hacc with ⟨-, h2⟩
    rw [if_neg hfmt] at h2
    simp only [Bool.and_eq_true] at h2
    exact h2.2
  rw [hname] at hfn
  rw [canConvertFunction,
    if_neg (by rintro ⟨-, heq⟩; exact absurd heq (by decide)),
    if_neg (by rintro ⟨-, heq, -⟩; exact absurd heq (by decide)),
    if_neg (by rintro ⟨-, hc⟩; exact absurd hc (by decide))] at hfn
  by_cases h20 : 20000 ≤ fb_version
  · rw [if_pos ⟨h20, rfl, hlen⟩] at hfn
    simpa [Bool.or_eq_true, Bool.and_eq_true, decide_eq_true_eq] using hfn
  · rw [if_neg (by rintro ⟨hv, -⟩; exact h20 hv),
      if_neg (by rintro ⟨hv, -⟩; exact h20 (by omega)),
      if_neg (by rintro ⟨hv, -⟩; exact h20 (by omega))] at hfn
    exact absurd hfn (by decide)

def substrLiteralArgs : List FbExpr :=
  [.varE true 0 1 .textT, .constE .int4 false "2"]

/-- C5 witness: the amended theorem applied to a concrete accepted
arity-2 substring call, whose second argument is indeed an INT4 literal. -/
theorem substring_pushdown_needs_int_literal_witness :
    argIsInt4Const (substrLiteralArgs.getD 1 (.otherNode 0)) = true ∨
      (substrLiteralArgs.length = 3 ∧
        argIsInt4Const (substrLiteralArgs.getD 2 (.otherNode 0)) = true) :=
  substring_pushdown_needs_int_literal 20500
    { proname := "substring", inPgCatalog := true, resultType := .textT }
    .explicitCall substrLiteralArgs rfl (by decide) (Or.inl rfl) rfl

/-! ## Claim C7: empty IN lists -/

theorem convertDatum_ne_empty (v : String) (ty : PgType) (hv : v ≠ "") (c : String)
    (hc : convertDatum v ty = some c) : c ≠ "" := by
  cases ty <;>
  · simp only [convertDatum, Option.some.injEq] at hc
    first
    | exact hc.elim
    | exact Option.noConfusion hc
    | (subst hc
       first
       | exact hv
       | (split <;> decide)
       | (intro h; rw [String.ext_iff] at h; simp [String.data_append] at h))

theorem renderArrayElems_ne_empty (ty : PgType) (elems : List (Option String))
    (hne : ∀ v ∈ elems, v ≠ some "") (ts : List String)
    (h : renderArrayElems ty elems = some ts) : ∀ u ∈ ts, u ≠ "" := by
  induction elems generalizing ts with
  | nil =>
    simp only [renderArrayElems, Option.some.injEq] at h
    subst h; simp
  | cons e rest ih =>
    cases e with
    | none =>
      simp only [renderArrayElems] at h
      cases hrest : renderArrayElems ty rest with
      | none => rw [hrest] at h; exact Option.noConfusion h
      | some ts' =>
        rw [hrest] at h
        simp only [Option.map_some', Option.some.injEq] at h
        subst h
        intro u hu
        rcases List.mem_cons.mp hu with h | h
        · subst h; simp
        · exact ih (fun w hw => hne w (by simp [hw])) ts' hrest u h
    | some v =>
      simp only [renderArrayElems] at h
      cases hcd : convertDatum v ty with
      | none => simp only [hcd] at h; exact Option.noConfusion h
      | some c =>
        simp only [hcd] at h
        cases hrest : renderArrayElems ty rest with
        | none => rw [hrest] at h; exact Option.noConfusion h
        | some ts' =>
          rw [hrest] at h
          simp only [Option.map_some', Option.some.injEq] at h
          subst h
          intro u hu
          rcases List.mem_cons.mp hu with h | h
          · rw [h]
            exact convertDatum_ne_empty v ty
              (fun hv0 => hne (some v) (by simp) (by rw [hv0])) c hcd
          · exact ih (fun w hw => hne w (by simp [hw])) ts' hrest u h

/-- C7 counterexample: rendering an empty IN list yields no text
(`none`) and no `IN ()` — but the caller does not treat the instance as
"cannot push down": `buildWhereClause` (src/convert.c lines 353-364)
wraps the empty result in parentheses unconditionally, so the assembled
WHERE clause still contains an empty group `()` for that instance instead
of dropping it. -/
theorem emptyInList_caller_emits_group :
    convertScalarArrayOpExpr "col1" true .int4 [] = none ∧
    buildWhereClause
        [convertScalarArrayOpExpr "col1" true .int4 [], some "(col2 = 1)"] true
      = " WHERE () AND ((col2 = 1))" :=
  ⟨rfl, rfl⟩

/-- C7 (amended): rendering a set-membership test with an empty literal
array produces no output (`convertScalarArrayOpExpr` sets no result), and
text of the form `IN ()` is never produced — whenever the renderer does
produce text, the parenthesized element list is non-empty with every
element a non-empty literal.  The caller, however, does not drop the
instance: `buildWhereClause` still wraps the (empty) result of such an
instance in parentheses, emitting an empty group `()` into the assembled
WHERE clause. -/
theorem emptyInList_renders_nothing (left : String) (useOr : Bool)
    (leftargtype : PgType) (elems : List (Option String))
    (hne : ∀ v ∈ elems, v ≠ some "") :
    (elems = [] → convertScalarArrayOpExpr left useOr leftargtype elems = none) ∧
    (∀ s, convertScalarArrayOpExpr left useOr leftargtype elems = some s →
       ∃ t ts, renderArrayElems leftargtype elems = some (t :: ts) ∧
         (∀ u ∈ t :: ts, u ≠ "") ∧
         s = "(" ++ left ++ (if useOr then " IN (" else " NOT IN (") ++
           String.intercalate ", " (t :: ts) ++ "))") ∧
    (∀ (rest : List (Option String)) (first : Bool), elems = [] →
       buildWhereClause (convertScalarArrayOpExpr left useOr leftargtype elems :: rest)
           first
         = (if first then " WHERE " else " AND ") ++ "()" ++
             buildWhereClause rest false) := by
  refine ⟨?_, ?_, ?_⟩
  · rintro rfl; rfl
  · intro s hs
    cases hre : renderArrayElems leftargtype elems with
    | none => rw [convertScalarArrayOpExpr, hre] at hs; exact Option.noConfusion hs
    | some ts0 =>
      cases ts0 with
      | nil =>
        rw [convertScalarArrayOpExpr, hre] at hs
        exact Option.noConfusion hs
      | cons t ts =>
        refine ⟨t, ts, rfl,
          renderArrayElems_ne_empty leftargtype elems hne _ hre, ?_⟩
        rw [convertScalarArrayOpExpr, hre] at hs
        injection hs with hs
        exact hs.symm
  · rintro rest first rfl
    cases first <;> rfl

/-- C7 witness: the amended theorem applied to an empty and to a two-element
concrete IN list. -/
theorem emptyInList_renders_nothing_witness :
    convertScalarArrayOpExpr "col1" true .int4 [] = none ∧
    (∃ t ts, renderArrayElems .int4 [some "1", some "2"] = some (t :: ts) ∧
       (∀ u ∈ t :: ts, u ≠ "") ∧
       "(col1 IN (1, 2))"
         = "(" ++ "col1" ++ (if true then " IN (" else " NOT IN (") ++
             String.intercalate ", " (t :: ts) ++ "))") :=
  ⟨(emptyInList_renders_nothing "col1" true .int4 [] (by simp)).1 rfl,
   (emptyInList_renders_nothing "col1" true .int4 [some "1", some "2"]
      (by decide)).2.1 "(col1 IN (1, 2))" rfl⟩

/-! ## Claim C1: the transaction-depth invariant -/

/-- The inductive invariant for well-nested event sequences: starting from
any state whose depth is at most the local nesting level `c` and whose
savepoint counters satisfy `pushed = popped + (max depth 1 - 1)`, the run
succeeds, the final depth equals the net depth of the trace, and the
counter equation is preserved. -/
theorem coordRun_wellNested (tr : List CoordEvent) :
    ∀ (c : Nat) (s : XactRunState), wellNested c tr = true → 1 ≤ c →
      s.xact_depth ≤ c →
      s.pushed = s.popped + (max s.xact_depth 1 - 1) →
      ∃ s2, coordRun s tr = .ok s2 ∧
        s2.xact_depth = netDepth s.xact_depth tr ∧
        s2.pushed = s2.popped + (max s2.xact_depth 1 - 1) := by
  induction tr with
  | nil =>
    intro c s _ _ _ hpp
    exact ⟨s, rfl, rfl, hpp⟩
  | cons e tr ih =>
    intro c s h hc hd hpp
    cases e with
    | ensureOpen l =>
      simp only [wellNested, Bool.and_eq_true, beq_iff_eq] at h
      obtain ⟨hlc, htr⟩ := h
      have hde : (fb_begin_remote_xact l s).xact_depth
          = max (if s.xact_depth = 0 then 1 else s.xact_depth) l := rfl
      have hpe : (fb_begin_remote_xact l s).pushed
          = s.pushed + (l - (if s.xact_depth = 0 then 1 else s.xact_depth)) := rfl
      have hoe : (fb_begin_remote_xact l s).popped = s.popped := rfl
      have hd1 : (if s.xact_depth = 0 then 1 else s.xact_depth)
          = max s.xact_depth 1 := by
        by_cases h0 : s.xact_depth = 0
        · rw [if_pos h0, h0]
          omega
        · rw [if_neg h0]
          omega
      rw [hd1] at hde hpe
      obtain ⟨s2, hrun2, hnet2, hinv2⟩ :=
        ih c (fb_begin_remote_xact l s) htr hc (by omega) (by omega)
      refine ⟨s2, hrun2, ?_, hinv2⟩
      rw [hnet2]
      show netDepth (fb_begin_remote_xact l s).xact_depth tr
          = netDepth (max s.xact_depth l) tr
      have hmax : (fb_begin_remote_xact l s).xact_depth = max s.xact_depth l := by
        omega
      rw [hmax]
    | subBegin =>
      simp only [wellNested] at h
      obtain ⟨s2, hrun2, hnet2, hinv2⟩ := ih (c + 1) s h (by omega) (by omega) hpp
      exact ⟨s2, hrun2, hnet2, hinv2⟩
    | subCommit l =>
      simp only [wellNested, Bool.and_eq_true, beq_iff_eq, decide_eq_true_eq] at h
      obtain ⟨⟨hlc, h2c⟩, htr⟩ := h
      by_cases hlt : s.xact_depth < l
      · have hstep : fb_subxact_close false l s = .ok s := by
          rw [fb_subxact_close, if_pos hlt]
        obtain ⟨s2, hrun2, hnet2, hinv2⟩ :=
          ih (c - 1) s htr (by omega) (by omega) hpp
        refine ⟨s2, ?_, ?_, hinv2⟩
        · show (match fb_subxact_close false l s with
                | .error u => Except.error u
                | .ok s1 => coordRun s1 tr) = .ok s2
          rw [hstep]
          exact hrun2
        · rw [hnet2]
          show netDepth s.xact_depth tr = netDepth (min s.xact_depth (l - 1)) tr
          have : min s.xact_depth (l - 1) = s.xact_depth := by omega
          rw [this]
      · have hstep : fb_subxact_close false l s
            = .ok { s with xact_depth := s.xact_depth - 1
                           have_error := s.have_error || false
                           popped := s.popped + 1 } := by
          rw [fb_subxact_close, if_neg hlt, if_neg (by omega)]
        obtain ⟨s2, hrun2, hnet2, hinv2⟩ :=
          ih (c - 1) { s with xact_depth := s.xact_depth - 1
                              have_error := s.have_error || false
                              popped := s.popped + 1 }
            htr (by omega) (by show s.xact_depth - 1 ≤ c - 1; omega)
            (by show s.pushed = s.popped + 1 + (max (s.xact_depth - 1) 1 - 1); omega)
        refine ⟨s2, ?_, ?_, hinv2⟩
        · show (match fb_subxact_close false l s with
                | .error u => Except.error u
                | .ok s1 => coordRun s1 tr) = .ok s2
          rw [hstep]
          exact hrun2
        · rw [hnet2]
          show netDepth (s.xact_depth - 1) tr = netDepth (min s.xact_depth (l - 1)) tr
          have : min s.xact_depth (l - 1) = s.xact_depth - 1 := by omega
          rw [this]
    | subAbort l =>
      simp only [wellNested, Bool.and_eq_true, beq_iff_eq, decide_eq_true_eq] at h
      obtain ⟨⟨hlc, h2c⟩, htr⟩ := h
      by_cases hlt : s.xact_depth < l
      · have hstep : fb_subxact_close true l s = .ok s := by
          rw [fb_subxact_close, if_pos hlt]
        obtain ⟨s2, hrun2, hnet2, hinv2⟩ :=
          ih (c - 1) s htr (by omega) (by omega) hpp
        refine ⟨s2, ?_, ?_, hinv2⟩
        · show (match fb_subxact_close true l s with
                | .error u => Except.error u
                | .ok s1 => coordRun s1 tr) = .ok s2
          rw [hstep]
          exact hrun2
        · rw [hnet2]
          show netDepth s.xact_depth tr = netDepth (min s.xact_depth (l - 1)) tr
          have : min s.xact_depth (l - 1) = s.xact_depth := by omega
          rw [this]
      · have hstep : fb_subxact_close true l s
            = .ok { s with xact_depth := s.xact_depth - 1
                           have_error := s.have_error || true
                           popped := s.popped + 1 } := by
          rw [fb_subxact_close, if_neg hlt, if_neg (by omega)]
        obtain ⟨s2, hrun2, hnet2, hinv2⟩ :=
          ih (c - 1) { s with xact_depth := s.xact_depth - 1
                              have_error := s.have_error || true
                              popped := s.popped + 1 }
            htr (by omega) (by show s.xact_depth - 1 ≤ c - 1; omega)
            (by show s.pushed = s.popped + 1 + (max (s.xact_depth - 1) 1 - 1); omega)
        refine ⟨s2, ?_, ?_, hinv2⟩
        · show (match fb_subxact_close true l s with
                | .error u => Except.error u
                | .ok s1 => coordRun s1 tr) = .ok s2
          rw [hstep]
          exact hrun2
        · rw [hnet2]
          show netDepth (s.xact_depth - 1) tr = netDepth (min s.xact_depth (l - 1)) tr
          have : min s.xact_depth (l - 1) = s.xact_depth - 1 := by omega
          rw [this]

/-- C1: for every well-nested sequence of ensure_open(level),
subtransaction-pre-commit(level) and subtransaction-abort(level) events
applied to a cached connection entry, the run raises no
"missed cleaning up remote subtransaction" error, the entry's
`xact_depth` after the sequence equals the net nesting depth implied by
the sequence, and the number of savepoints pushed minus the number popped
equals `xact_depth - 1` whenever `xact_depth ≥ 1`. -/
theorem xact_depth_invariant (tr : List CoordEvent) (h : wellNested 1 tr = true) :
    ∃ s, coordRun initialXactRunState tr = .ok s ∧
      s.xact_depth = netDepth 0 tr ∧
      (1 ≤ s.xact_depth → s.pushed = s.popped + (s.xact_depth - 1)) := by
  obtain ⟨s, hrun, hnet, hinv⟩ :=
    coordRun_wellNested tr 1 initialXactRunState h (by omega)
      (by show (0 : Nat) ≤ 1; omega)
      (by show (0 : Nat) = 0 + (max 0 1 - 1); omega)
  exact ⟨s, hrun, hnet, fun h1 => by omega⟩

/-- C1 witness: the theorem applied to the concrete well-nested trace of
end-to-end scenario C — open at level 1, enter a subtransaction, open at
level 2, abort the subtransaction. -/
theorem xact_depth_invariant_witness :
    ∃ s, coordRun initialXactRunState
        [.ensureOpen 1, .subBegin, .ensureOpen 2, .subAbort 2] = .ok s ∧
      s.xact_depth = netDepth 0 [.ensureOpen 1, .subBegin, .ensureOpen 2, .subAbort 2] ∧
      (1 ≤ s.xact_depth → s.pushed = s.popped + (s.xact_depth - 1)) :=
  xact_depth_invariant [.ensureOpen 1, .subBegin, .ensureOpen 2, .subAbort 2]
    (by decide)

end FirebirdFdw
